import Mathlib

/-!
Verification development for the book parser and converter script
(`src/book_parser.py`).

Python strings are embedded as `List Char` (`PyStr`).  The parsed HTML
document (a BeautifulSoup tree) is embedded as its pre-order
serialization: a list of (address, entry) pairs, where an address is the
path of child indices from the root and an entry is either a tag with its
name or a text node (NavigableString).  Pre-order serialization is
faithful to document order, which is the order BeautifulSoup's
`find_all`, `find_next` and `get_text` traversals use.

The module-level page loop of the script is embedded as a fuel-indexed
recursive function; the fuel is `max_pages + 1`, which dominates the
number of iterations the `while page_number <= max_pages` loop can make,
so the fuel-exhaustion branch coincides exactly with the loop condition
turning false.
-/

/-- Python strings, embedded as lists of characters. -/
abbrev PyStr := List Char

/-- Characters for which Python's `str.isspace` holds; `str.strip()` with no
arguments removes exactly these from both ends. -/
def isPySpace (c : Char) : Bool :=
  c == ' ' || c == '\t' || c == '\n' || c == '\r' || c == '\x0b' || c == '\x0c' ||
  c == '\x1c' || c == '\x1d' || c == '\x1e' || c == '\x1f' || c == '\x85' ||
  c == ' ' || c == ' ' ||
  (' ' ≤ c && c ≤ ' ') ||
  c == ' ' || c == ' ' || c == ' ' || c == ' ' || c == '　'

/-- Fuel-indexed core of Python's `str.replace`: scan left to right, and at
each position either replace a non-overlapping occurrence of `pat` by `repl`
and jump past it, or keep the character.  With `fuel ≥ l.length` this is
exactly Python's `str.replace` for a non-empty pattern (the only way the
script calls it: its patterns have length 2 and 1). -/
def pyReplaceAux (pat repl : PyStr) : Nat → PyStr → PyStr
  | _, [] => []
  | 0, l => l
  | fuel + 1, c :: rest =>
    if pat.isPrefixOf (c :: rest) then
      repl ++ pyReplaceAux pat repl fuel ((c :: rest).drop pat.length)
    else
      c :: pyReplaceAux pat repl fuel rest

/-- Python's `s.replace(pat, repl)` for a non-empty pattern. -/
def pyReplace (pat repl l : PyStr) : PyStr :=
  pyReplaceAux pat repl l.length l

/-- Python's `s.strip()`: drop leading and trailing whitespace. -/
def pyStrip (l : PyStr) : PyStr :=
  ((l.dropWhile isPySpace).reverse.dropWhile isPySpace).reverse

/-- U+2013, the en dash of the `'\u2013\u00a0'` pattern. -/
def ndash : Char := '–'

/-- U+00A0, the non-breaking space. -/
def nbsp : Char := ' '

/-- `clean_content` (book_parser.py lines 62-65):
`content.replace('– ', '').replace(' ', ' ').strip()`. -/
def clean_content (content : PyStr) : PyStr :=
  pyStrip (pyReplace [nbsp] [' '] (pyReplace [ndash, nbsp] [] content))

/-- Convert a Lean string literal to the `PyStr` embedding. -/
def pstr (s : String) : PyStr := s.toList

example : clean_content (pstr "  – hello world ") = pstr "hello world" := by decide
example : clean_content (pstr "x– y") = pstr "xy" := by decide

/-! ## The parsed HTML document model

A BeautifulSoup tree is embedded as its pre-order serialization.  An
address (`Addr`) is the path of child indices from the root; the root has
address `[]`.  Entries appear in document order (each node before its
descendants, descendants before later siblings), which is the traversal
order of `find_all`, `find_next` and `get_text`. -/

/-- One node of the parsed document: a tag (bs4 `Tag`) with its name, or a
text node (bs4 `NavigableString`) with its content. -/
inductive Entry where
  | tag (name : String)
  | str (s : PyStr)
deriving DecidableEq

/-- Path of child indices from the document root. -/
abbrev Addr := List Nat

/-- A parsed document: its nodes in document (pre-order) order. -/
abbrev Doc := List (Addr × Entry)

/-- The node stored at an address, if any. -/
def entryAt (doc : Doc) (a : Addr) : Option Entry :=
  (doc.find? (fun e => e.1 == a)).map (fun e => e.2)

/-- Whether the node at `a` has at least one child. -/
def hasChild (doc : Doc) (a : Addr) : Bool :=
  doc.any (fun e => e.1.dropLast == a && e.1.length == a.length + 1)

/-- Python truthiness of the node at `a`: a `NavigableString` is falsy iff
empty (it subclasses `str`); a `Tag` is falsy iff it has no contents
(`Tag.__len__` is `len(self.contents)`). -/
def truthyAt (doc : Doc) (a : Addr) : Bool :=
  match entryAt doc a with
  | some (.str s) => !s.isEmpty
  | some (.tag _) => hasChild doc a
  | none => false

/-- Address of the node's immediately following sibling (bs4
`next_sibling`), whether or not a node lives there. -/
def nextSiblingAddr (a : Addr) : Option Addr :=
  match a.getLast? with
  | some i => some (a.dropLast ++ [i + 1])
  | none => none

/-- Python's substring test `needle in hay` on strings. -/
def strContains (hay needle : PyStr) : Bool :=
  hay.tails.any (fun t => needle.isPrefixOf t)

/-- The entries of the children of the node at `a`, in document order. -/
def childEntries (doc : Doc) (a : Addr) : List Entry :=
  (doc.filter (fun e => e.1.dropLast == a && e.1.length == a.length + 1)).map
    (fun e => e.2)

/-- Python's `needle in node` for a document node: on a `NavigableString`
it is the substring test; on a `Tag` it is membership in `tag.contents`
(`Tag.__contains__`), where a child matches iff it is a `NavigableString`
whose whole content equals `needle`. -/
def nodeContains (doc : Doc) (a : Addr) (needle : PyStr) : Bool :=
  match entryAt doc a with
  | some (.str s) => strContains s needle
  | some (.tag _) =>
    (childEntries doc a).any (fun e =>
      match e with
      | .str t => t == needle
      | .tag _ => false)
  | none => false

/-- The `soup.find_all(lambda tag: tag.name == "img" and tag.next_sibling
and str(page_number) in tag.next_sibling)` call of
`extract_and_save_content` (line 71): every tag named `img`, in document
order, whose next sibling exists, is truthy, and contains the decimal
representation of the page number. -/
def findMarkers (doc : Doc) (page_number : Nat) : List Addr :=
  (doc.filter (fun e =>
    (match e.2 with
     | .tag n => n == "img"
     | .str _ => false) &&
    (match nextSiblingAddr e.1 with
     | some sib =>
       truthyAt doc sib && nodeContains doc sib (pstr (Nat.repr page_number))
     | none => false))).map (fun e => e.1)

/-- The entries strictly after the node at `a` in document order (bs4
`next_elements`: the node's descendants first, then everything later). -/
def entriesAfter (doc : Doc) (a : Addr) : Doc :=
  (doc.dropWhile (fun e => !(e.1 == a))).drop 1

/-- bs4 `find_next(name)`: the first tag named `name` strictly after `a`
in document order. -/
def findNextTag (doc : Doc) (a : Addr) (name : String) : Option Addr :=
  ((entriesAfter doc a).find? (fun e =>
    match e.2 with
    | .tag n => n == name
    | .str _ => false)).map (fun e => e.1)

/-- bs4 `find_next_sibling(name)`: the first later sibling of the node at
`a` that is a tag named `name`.  Later siblings share the parent address
and have a strictly larger final index; in a pre-order document they
appear in index order. -/
def findNextSiblingTag (doc : Doc) (a : Addr) (name : String) : Option Addr :=
  match a.getLast? with
  | some i =>
    ((doc.find? (fun e =>
      e.1.dropLast == a.dropLast &&
      (match e.1.getLast? with
       | some j => decide (i < j)
       | none => false) &&
      (match e.2 with
       | .tag n => n == name
       | .str _ => false))).map (fun e => e.1))
  | none => none

/-- bs4 `get_text()` on the node at `a`: the concatenation, in document
order, of every text node in its subtree (itself included). -/
def getTextAt (doc : Doc) (a : Addr) : PyStr :=
  ((doc.filter (fun e => a.isPrefixOf e.1)).map (fun e =>
    match e.2 with
    | .str s => s
    | .tag _ => [])).flatten

/-- `soup.get_text()`: the whole-page visible text. -/
def getTextDoc (doc : Doc) : PyStr := getTextAt doc []

/-- The `while next_sibling and next_sibling.name == "p"` loop of
`extract_and_save_content` (lines 76-83): starting from an optional
address, as long as it holds a truthy tag named `p`, clean its text and
collect it, then move to `find_next_sibling('p')`.  The loop visits a new
document node each time (a strictly later sibling), so `doc.length` fuel
is enough for the fuel branch never to fire. -/
def collectParagraphs (doc : Doc) : Nat → Option Addr → List PyStr
  | 0, _ => []
  | _, none => []
  | fuel + 1, some a =>
    if truthyAt doc a &&
       (match entryAt doc a with
        | some (.tag n) => n == "p"
        | _ => false) then
      clean_content (getTextAt doc a) ::
        collectParagraphs doc fuel (findNextSiblingTag doc a "p")
    else []

/-- The cleaned paragraph texts that `extract_and_save_content` (lines
69-83) writes for one page, in order: for each marker, start from
`marker.find_next('p')` and run the sibling-collection loop. -/
def extract_texts (doc : Doc) (page_number : Nat) : List PyStr :=
  (findMarkers doc page_number).flatMap (fun m =>
    collectParagraphs doc doc.length (findNextTag doc m "p"))

/-- `save_content` (lines 57-58): append the content plus two newlines to
the output file. -/
def save_content (file content : PyStr) : PyStr :=
  file ++ content ++ pstr "\n\n"

/-- `extract_and_save_content` as a function on the output file content:
write each collected paragraph in order. -/
def extract_and_save_content (doc : Doc) (file : PyStr) (page_number : Nat) : PyStr :=
  (extract_texts doc page_number).foldl save_content file

/-! ## The page fetcher and the Assembler loop -/

/-- `fetch_page` (lines 48-53) on an HTTP response, given as (status code,
body text): return the body on status 200, else `None`. -/
def fetch_page (response : Nat × PyStr) : Option PyStr :=
  if response.1 = 200 then some response.2 else none

/-- Python truthiness of `page_content` as tested by `if page_content:`
(line 99): `None` and the empty string are falsy. -/
def pyTruthy : Option PyStr → Bool
  | some s => !s.isEmpty
  | none => false

/-- The strike condition of line 109:
`not current_content.strip() or current_content == last_content`. -/
def isStrike (current_content last_content : PyStr) : Bool :=
  (pyStrip current_content).isEmpty || current_content == last_content

/-- Why the `while` loop stopped: the three-strikes heuristic fired and
reported this end-of-book page (line 112), a page was absent (line 121),
or `page_number` exceeded `max_pages`. -/
inductive StopReason where
  | endDetected (p : Nat)
  | notFound (p : Nat)
  | exhausted
deriving DecidableEq

/-- Outcome of a run of the loop: final output-file content, the pages
fetched (in order), and why it stopped. -/
structure RunResult where
  file : PyStr
  fetched : List Nat
  reason : StopReason
deriving DecidableEq

/-- The module-level `while page_number <= max_pages` loop (lines 86-122),
parameterised by the HTML parser (`BeautifulSoup(·, 'html.parser')`) and
by the network (page number to HTTP response; the URL is the fixed
template instantiated with the page number, so pages map 1-1 to URLs).
Arguments after `max_pages`: fuel, `page_number`, file content,
`last_content`, `empty_page_counter`.  One fuel is spent per loop-
condition check, so from the entry state fuel `max_pages + 1` makes the
fuel branch unreachable.  First, the updated `empty_page_counter` after
the EVALUATING step of lines 106-115: increment on a strike, reset to
zero otherwise. -/
def nextCounter (current_content last_content : PyStr) (empty_page_counter : Nat) : Nat :=
  if isStrike current_content last_content then empty_page_counter + 1 else 0

/-- Record one more fetched page in front of a later run's outcome. -/
def consFetched (page_number : Nat) (r : RunResult) : RunResult :=
  ⟨r.file, page_number :: r.fetched, r.reason⟩

def runFrom (parse : PyStr → Doc) (net : Nat → Nat × PyStr) (max_pages : Nat) :
    Nat → Nat → PyStr → PyStr → Nat → RunResult
  | 0, _, file, _, _ => ⟨file, [], .exhausted⟩
  | fuel + 1, page_number, file, last_content, empty_page_counter =>
    if max_pages < page_number then ⟨file, [], .exhausted⟩
    else
      match fetch_page (net page_number) with
      | some page_content =>
        if page_content.isEmpty then ⟨file, [page_number], .notFound page_number⟩
        else
          if 3 ≤ nextCounter (getTextDoc (parse page_content)) last_content
              empty_page_counter then
            ⟨extract_and_save_content (parse page_content) file page_number,
             [page_number], .endDetected (page_number - 3)⟩
          else
            consFetched page_number
              (runFrom parse net max_pages fuel (page_number + 1)
                (extract_and_save_content (parse page_content) file page_number)
                (getTextDoc (parse page_content))
                (nextCounter (getTextDoc (parse page_content)) last_content
                  empty_page_counter))
      | none => ⟨file, [page_number], .notFound page_number⟩

/-- The whole parsing phase: `page_number = 1`, `last_content = ""`,
`empty_page_counter = 0`, empty output file. -/
def runBook (parse : PyStr → Doc) (net : Nat → Nat × PyStr) (max_pages : Nat) :
    RunResult :=
  runFrom parse net max_pages (max_pages + 1) 1 [] [] 0

/-! ## The format converter -/

/-- What `convert_txt_to_mobi` printed. -/
inductive ConvertMsg where
  | success
  | errorReport (exitCode : Nat)
deriving DecidableEq

/-- Outcome of `convert_txt_to_mobi`: the text file's content afterwards,
the message printed, how many times the external tool was invoked, and
whether an exception escaped the function. -/
structure ConvertResult where
  txtFileAfter : PyStr
  message : ConvertMsg
  invocations : Nat
  raised : Bool
deriving DecidableEq

/-- `convert_txt_to_mobi` (lines 135-140), given the exit code of the one
`subprocess.run(['ebook-convert', txt_file, mobi_file], check=True)`
invocation and the current content of the already-written text file.
With `check=True` a non-zero exit raises `CalledProcessError`, which the
`except` clause catches and reports; nothing touches the text file, and
no exception escapes either way. -/
def convert_txt_to_mobi (toolExit : Nat) (txtContent : PyStr) : ConvertResult :=
  if toolExit = 0 then ⟨txtContent, .success, 1, false⟩
  else ⟨txtContent, .errorReport toolExit, 1, false⟩

/-! ## Synthetic page sources and documents for the testable scenarios -/

/-- A synthetic parser: page body `s` becomes a document holding an `img`
marker, the body as the marker's sibling text, and one paragraph whose
text is `'c'` followed by the body.  Its whole-page text is
`s ++ 'c' :: s`. -/
def parseSimple (s : PyStr) : Doc :=
  [([], .tag "[document]"), ([0], .tag "img"), ([1], .str s),
   ([2], .tag "p"), ([2, 0], .str ('c' :: s))]

/-- Synthetic source for the absence scenario: pages 1-4 are distinct
non-empty pages, page 5 onwards answer HTTP 404. -/
def srcC5 : Nat → Nat × PyStr :=
  fun n => if n ≤ 4 then (200, pstr (Nat.repr n)) else (404, [])

/-- Synthetic source that never signals absence or repetition: every page
is distinct and non-empty. -/
def srcC6 : Nat → Nat × PyStr :=
  fun n => (200, pstr (Nat.repr n))

/-- Synthetic source for the stop-after-three scenario: pages 1-9 have
distinct non-empty texts, and pages 10, 11, 12 (and later) repeat page
9's body, hence its whole-page text. -/
def srcC1good : Nat → Nat × PyStr :=
  fun n => (200, if n ≤ 9 then pstr (Nat.repr n) else pstr "9")

/-- Synthetic source with pages 1-9 distinct and non-empty and pages 10,
11, 12 (and later) sharing a whole-page text that differs from page 9's:
page 10 is then fresh content, so the third strike only lands at page
13. -/
def srcC1bad : Nat → Nat × PyStr :=
  fun n => (200, if n ≤ 9 then pstr (Nat.repr n) else pstr "X")

/-- Synthetic source whose page 1 answers HTTP 200 with an empty body. -/
def srcC10 : Nat → Nat × PyStr :=
  fun n => if n = 1 then (200, []) else (200, pstr (Nat.repr n))

example : getTextDoc (parseSimple (pstr "1")) = pstr "1c1" := by decide
example : extract_texts (parseSimple (pstr "1")) 1 = [pstr "c1"] := by decide
example : runBook parseSimple srcC6 3 =
    ⟨pstr "c1\n\nc2\n\nc3\n\n", [1, 2, 3], .exhausted⟩ := by decide
example : runBook parseSimple srcC5 20 =
    ⟨pstr "c1\n\nc2\n\nc3\n\nc4\n\n", [1, 2, 3, 4, 5], .notFound 5⟩ := by decide
example : (runBook parseSimple srcC1good 20).reason = .endDetected 9 := by decide
example : (runBook parseSimple srcC1good 20).fetched = List.range' 1 12 := by decide
example : (runBook parseSimple srcC1bad 20).reason = .endDetected 10 := by decide
example : (runBook parseSimple srcC1bad 20).fetched = List.range' 1 13 := by decide
example : runBook parseSimple srcC10 20 = ⟨[], [1], .notFound 1⟩ := by decide

/-- A page with marker "7" followed by three sibling paragraphs and then a
non-paragraph element, with no paragraph siblings after it. -/
def docMarker7 : Doc :=
  [([], .tag "[document]"), ([0], .tag "html"), ([0, 0], .tag "body"),
   ([0, 0, 0], .tag "img"), ([0, 0, 1], .str (pstr "7")),
   ([0, 0, 2], .tag "p"), ([0, 0, 2, 0], .str (pstr "alpha")),
   ([0, 0, 3], .tag "p"), ([0, 0, 3, 0], .str (pstr "beta")),
   ([0, 0, 4], .tag "p"), ([0, 0, 4, 0], .str (pstr "gamma")),
   ([0, 0, 5], .tag "div"), ([0, 0, 5, 0], .str (pstr "omega"))]

/-- A page with marker "7", one paragraph sibling, then a non-paragraph
(`div`) sibling, then another paragraph sibling after the `div`. -/
def docMarker7Split : Doc :=
  [([], .tag "[document]"), ([0], .tag "html"), ([0, 0], .tag "body"),
   ([0, 0, 0], .tag "img"), ([0, 0, 1], .str (pstr "7")),
   ([0, 0, 2], .tag "p"), ([0, 0, 2, 0], .str (pstr "alpha")),
   ([0, 0, 3], .tag "div"), ([0, 0, 3, 0], .str (pstr "omega")),
   ([0, 0, 4], .tag "p"), ([0, 0, 4, 0], .str (pstr "beta"))]

example : extract_texts docMarker7 7 = [pstr "alpha", pstr "beta", pstr "gamma"] := by
  decide
example : extract_texts docMarker7Split 7 = [pstr "alpha", pstr "beta"] := by decide

/-! ## Helper lemmas about the text normalizer -/

/-- If some character of the pattern does not occur in the string, a
replace pass leaves the string unchanged. -/
theorem pyReplaceAux_eq_self {x : Char} {pat repl : PyStr} (hx : x ∈ pat) :
    ∀ fuel l, x ∉ l → pyReplaceAux pat repl fuel l = l := by
  intro fuel
  induction fuel with
  | zero => intro l _; cases l <;> simp [pyReplaceAux]
  | succ fuel ih =>
    intro l hl
    cases l with
    | nil => simp [pyReplaceAux]
    | cons c rest =>
      have hpre : pat.isPrefixOf (c :: rest) = false := by
        cases hp : pat.isPrefixOf (c :: rest)
        · rfl
        · exact absurd ((List.isPrefixOf_iff_prefix.mp hp).subset hx) hl
      have hrest : x ∉ rest := fun h => hl (List.mem_cons_of_mem _ h)
      simp [pyReplaceAux, hpre, ih rest hrest]

/-- After `replace(nbsp, ' ')` with enough fuel, no non-breaking space
remains. -/
theorem nbsp_notMem_pyReplaceAux :
    ∀ fuel l, l.length ≤ fuel → nbsp ∉ pyReplaceAux [nbsp] [' '] fuel l := by
  intro fuel
  induction fuel with
  | zero =>
    intro l hl
    have : l = [] := List.eq_nil_of_length_eq_zero (Nat.le_zero.mp hl)
    subst this
    simp [pyReplaceAux]
  | succ fuel ih =>
    intro l hl
    cases l with
    | nil => simp [pyReplaceAux]
    | cons c rest =>
      have hlen : rest.length ≤ fuel := by
        simp only [List.length_cons] at hl; omega
      by_cases hc : nbsp = c
      · subst hc
        have hpre : List.isPrefixOf [nbsp] (nbsp :: rest) = true := by
          simp [List.isPrefixOf]
        simp only [pyReplaceAux, hpre, if_true, List.length_cons]
        intro hmem
        rcases List.mem_append.mp hmem with h | h
        · simp at h
          exact absurd h (by decide)
        · simp only [List.drop_succ_cons, List.drop_zero] at h
          exact ih rest hlen h
      · have hpre : List.isPrefixOf [nbsp] (c :: rest) = false := by
          simp [List.isPrefixOf]
          intro h
          exact absurd h hc
        simp only [pyReplaceAux, hpre, Bool.false_eq_true, if_false]
        intro hmem
        rcases List.mem_cons.mp hmem with h | h
        · exact hc h
        · exact ih rest hlen h

/-- Membership survives stripping backwards. -/
theorem mem_of_mem_pyStrip {x : Char} {l : PyStr} (h : x ∈ pyStrip l) : x ∈ l := by
  unfold pyStrip at h
  rw [List.mem_reverse] at h
  have h2 := (List.dropWhile_sublist isPySpace).subset h
  rw [List.mem_reverse] at h2
  exact (List.dropWhile_sublist isPySpace).subset h2

/-- Dropping a satisfied prefix twice is the same as once. -/
theorem dropWhile_dropWhile (p : Char → Bool) (l : List Char) :
    (l.dropWhile p).dropWhile p = l.dropWhile p := by
  induction l with
  | nil => rfl
  | cons a l ih =>
    by_cases h : p a
    · simp [List.dropWhile_cons, h, ih]
    · simp [List.dropWhile_cons, h]

/-- The head surviving a `dropWhile` fails the predicate. -/
theorem head_dropWhile_false (p : Char → Bool) :
    ∀ (l : List Char) (c : Char), (l.dropWhile p).head? = some c → p c = false := by
  intro l
  induction l with
  | nil => intro c h; simp at h
  | cons a l ih =>
    intro c h
    by_cases ha : p a
    · rw [List.dropWhile_cons, if_pos ha] at h
      exact ih c h
    · rw [List.dropWhile_cons, if_neg ha] at h
      simp at h
      subst h
      exact Bool.of_not_eq_true ha

/-- A stripped string has no leading whitespace left. -/
theorem pyStrip_dropWhile (l : PyStr) :
    (pyStrip l).dropWhile isPySpace = pyStrip l := by
  obtain ⟨w, hw⟩ := @List.dropWhile_suffix Char ((l.dropWhile isPySpace).reverse) isPySpace
  cases hv : (List.dropWhile isPySpace (l.dropWhile isPySpace).reverse).reverse with
  | nil => simp [pyStrip, hv]
  | cons c t =>
    have hu : l.dropWhile isPySpace = c :: (t ++ w.reverse) := by
      have h1 := congrArg List.reverse hw
      rw [List.reverse_append, List.reverse_reverse, hv] at h1
      simpa using h1.symm
    have hc : isPySpace c = false := by
      apply head_dropWhile_false isPySpace l c
      rw [hu]
      rfl
    show (pyStrip l).dropWhile isPySpace = pyStrip l
    unfold pyStrip
    rw [hv, List.dropWhile_cons, hc]
    simp

/-- Python's `strip` is idempotent. -/
theorem pyStrip_idem (l : PyStr) : pyStrip (pyStrip l) = pyStrip l := by
  have hA := pyStrip_dropWhile l
  conv_lhs => rw [pyStrip, hA, pyStrip, List.reverse_reverse]
  rw [dropWhile_dropWhile]
  rfl

/-- For a non-empty pattern, any fuel of at least the string's length
gives the same (true) result of the replace scan. -/
theorem pyReplaceAux_fuel {pat repl : PyStr} (hpat : pat ≠ []) :
    ∀ f1 f2 l, l.length ≤ f1 → l.length ≤ f2 →
      pyReplaceAux pat repl f1 l = pyReplaceAux pat repl f2 l := by
  intro f1
  induction f1 with
  | zero =>
    intro f2 l h1 _
    have : l = [] := List.eq_nil_of_length_eq_zero (Nat.le_zero.mp h1)
    subst this
    cases f2 <;> simp [pyReplaceAux]
  | succ f1 ih =>
    intro f2 l h1 h2
    cases l with
    | nil => cases f2 <;> simp [pyReplaceAux]
    | cons c rest =>
      cases f2 with
      | zero => simp at h2
      | succ f2 =>
        have hplen : 1 ≤ pat.length := by
          cases pat with
          | nil => exact absurd rfl hpat
          | cons a as => simp
        simp only [pyReplaceAux]
        simp only [List.length_cons] at h1 h2
        by_cases hp : pat.isPrefixOf (c :: rest)
        · rw [if_pos hp, if_pos hp]
          congr 1
          apply ih
          · simp only [List.length_drop, List.length_cons]; omega
          · simp only [List.length_drop, List.length_cons]; omega
        · rw [if_neg hp, if_neg hp]
          congr 1
          apply ih
          · omega
          · omega

/-- A dash + non-breaking-space pair opening the content is removed by
`clean_content`. -/
theorem clean_content_cons_pair (s : PyStr) :
    clean_content (ndash :: nbsp :: s) = clean_content s := by
  unfold clean_content
  congr 2
  unfold pyReplace
  have hpre : List.isPrefixOf [ndash, nbsp] (ndash :: nbsp :: s) = true := by
    simp [List.isPrefixOf]
  simp only [List.length_cons, pyReplaceAux, hpre, if_true, List.nil_append,
    List.drop_succ_cons, List.drop_zero]
  exact pyReplaceAux_fuel (by simp) (s.length + 1) s.length s (by omega) (by omega)

/-- No non-breaking space survives `clean_content`. -/
theorem nbsp_notMem_clean_content (s : PyStr) : nbsp ∉ clean_content s := by
  intro h
  have h2 := mem_of_mem_pyStrip h
  exact nbsp_notMem_pyReplaceAux _ _ (le_refl _) h2

/-- `clean_content` fixes its own output. -/
theorem clean_content_fix (s : PyStr) :
    clean_content (clean_content s) = clean_content s := by
  have hnb := nbsp_notMem_clean_content s
  conv_lhs => rw [clean_content]
  rw [show pyReplace [ndash, nbsp] [] (clean_content s) = clean_content s from
    pyReplaceAux_eq_self (by simp) _ _ hnb]
  rw [show pyReplace [nbsp] [' '] (clean_content s) = clean_content s from
    pyReplaceAux_eq_self (by simp) _ _ hnb]
  exact pyStrip_idem _

example : clean_content (clean_content (pstr "  – a b ")) =
    clean_content (pstr "  – a b ") := clean_content_fix _

/-! ## Helper lemmas about the Assembler loop -/

/-- If the fetched page is falsy (absent, or present with empty body),
the iteration at that page stops the loop at once: nothing is written,
nothing later is fetched, and the "does not exist" path is reported. -/
theorem runFrom_notFound (parse : PyStr → Doc) (net : Nat → Nat × PyStr)
    (mp fuel page : Nat) (file last : PyStr) (ctr : Nat)
    (hpage : page ≤ mp) (habs : pyTruthy (fetch_page (net page)) = false) :
    runFrom parse net mp (fuel + 1) page file last ctr =
      ⟨file, [page], .notFound page⟩ := by
  simp only [runFrom]
  rw [if_neg (by omega)]
  cases hf : fetch_page (net page) with
  | none => rfl
  | some s =>
    rw [hf] at habs
    have hse : s.isEmpty = true := by simpa [pyTruthy] using habs
    simp [hse]

/-- If the fetched page is truthy and the updated counter stays below 3,
the iteration writes the page's extracted content, stores the current
whole-page text as `last_content`, hands the updated counter on, and
continues with the next page number. -/
theorem runFrom_continue (parse : PyStr → Doc) (net : Nat → Nat × PyStr)
    (mp fuel page : Nat) (file last : PyStr) (ctr : Nat) (body : PyStr)
    (hpage : page ≤ mp) (hfetch : fetch_page (net page) = some body)
    (hbody : body ≠ [])
    (hlow : nextCounter (getTextDoc (parse body)) last ctr < 3) :
    runFrom parse net mp (fuel + 1) page file last ctr =
      consFetched page
        (runFrom parse net mp fuel (page + 1)
          (extract_and_save_content (parse body) file page)
          (getTextDoc (parse body))
          (nextCounter (getTextDoc (parse body)) last ctr)) := by
  simp only [runFrom]
  rw [if_neg (by omega), hfetch]
  have hbe : body.isEmpty = false := by
    cases body with
    | nil => exact absurd rfl hbody
    | cons c t => rfl
  simp only [hbe, Bool.false_eq_true, if_false]
  rw [if_neg (by omega)]

/-- If the fetched page is truthy and the updated counter reaches 3, the
iteration writes the page's extracted content and stops, reporting
`page_number - 3` as the end of the book. -/
theorem runFrom_endStep (parse : PyStr → Doc) (net : Nat → Nat × PyStr)
    (mp fuel page : Nat) (file last : PyStr) (ctr : Nat) (body : PyStr)
    (hpage : page ≤ mp) (hfetch : fetch_page (net page) = some body)
    (hbody : body ≠ [])
    (hhigh : 3 ≤ nextCounter (getTextDoc (parse body)) last ctr) :
    runFrom parse net mp (fuel + 1) page file last ctr =
      ⟨extract_and_save_content (parse body) file page, [page],
       .endDetected (page - 3)⟩ := by
  simp only [runFrom]
  rw [if_neg (by omega), hfetch]
  have hbe : body.isEmpty = false := by
    cases body with
    | nil => exact absurd rfl hbody
    | cons c t => rfl
  simp only [hbe, Bool.false_eq_true, if_false]
  rw [if_pos hhigh]

/-- The loop makes at most `max_pages + 1 - page_number` iterations. -/
theorem runFrom_fetched_length (parse : PyStr → Doc) (net : Nat → Nat × PyStr)
    (mp : Nat) :
    ∀ fuel page file last ctr,
      (runFrom parse net mp fuel page file last ctr).fetched.length ≤
        mp + 1 - page := by
  intro fuel
  induction fuel with
  | zero => intro page file last ctr; simp [runFrom]
  | succ fuel ih =>
    intro page file last ctr
    simp only [runFrom]
    by_cases hpg : mp < page
    · rw [if_pos hpg]; simp
    · rw [if_neg hpg]
      cases hf : fetch_page (net page) with
      | none => simp; omega
      | some s =>
        by_cases hs : s.isEmpty
        · simp [hs]; omega
        · simp only [hs, Bool.false_eq_true, if_false]
          by_cases h3 : 3 ≤ nextCounter (getTextDoc (parse s)) last ctr
          · rw [if_pos h3]; simp; omega
          · rw [if_neg h3]
            have hrec := ih (page + 1)
              (extract_and_save_content (parse s) file page)
              (getTextDoc (parse s))
              (nextCounter (getTextDoc (parse s)) last ctr)
            simp only [consFetched, List.length_cons]
            omega

/-- Whatever happens, the pages fetched from `page` on form the
contiguous block `page, page+1, ...`. -/
theorem runFrom_fetched_range (parse : PyStr → Doc) (net : Nat → Nat × PyStr)
    (mp : Nat) :
    ∀ fuel page file last ctr,
      ∃ k, (runFrom parse net mp fuel page file last ctr).fetched =
        List.range' page k := by
  intro fuel
  induction fuel with
  | zero => intro page file last ctr; exact ⟨0, rfl⟩
  | succ fuel ih =>
    intro page file last ctr
    simp only [runFrom]
    by_cases hpg : mp < page
    · rw [if_pos hpg]; exact ⟨0, rfl⟩
    · rw [if_neg hpg]
      cases hf : fetch_page (net page) with
      | none => exact ⟨1, rfl⟩
      | some s =>
        by_cases hs : s.isEmpty
        · simp only [hs, if_true]; exact ⟨1, rfl⟩
        · simp only [hs, Bool.false_eq_true, if_false]
          by_cases h3 : 3 ≤ nextCounter (getTextDoc (parse s)) last ctr
          · rw [if_pos h3]; exact ⟨1, rfl⟩
          · rw [if_neg h3]
            obtain ⟨k, hk⟩ := ih (page + 1)
              (extract_and_save_content (parse s) file page)
              (getTextDoc (parse s))
              (nextCounter (getTextDoc (parse s)) last ctr)
            refine ⟨k + 1, ?_⟩
            simp only [consFetched, hk, List.range'_succ]

/-- If the three-strikes stop fires, the reported end-of-book page is the
page at which it fired minus 3; the invariant `ctr + 1 ≤ page` (true from
the entry state `ctr = 0`, `page = 1`) makes the subtraction exact. -/
theorem runFrom_endDetected_last (parse : PyStr → Doc) (net : Nat → Nat × PyStr)
    (mp : Nat) :
    ∀ fuel page file last ctr p,
      ctr + 1 ≤ page →
      (runFrom parse net mp fuel page file last ctr).reason = .endDetected p →
      (runFrom parse net mp fuel page file last ctr).fetched.getLast? =
        some (p + 3) := by
  intro fuel
  induction fuel with
  | zero =>
    intro page file last ctr p _ hr
    simp [runFrom] at hr
  | succ fuel ih =>
    intro page file last ctr p hinv hr
    by_cases hpg : mp < page
    · have hx : runFrom parse net mp (fuel + 1) page file last ctr =
          ⟨file, [], .exhausted⟩ := by
        simp only [runFrom]
        rw [if_pos hpg]
      rw [hx] at hr
      simp at hr
    · have hpage : page ≤ mp := by omega
      cases hf : fetch_page (net page) with
      | none =>
        have hx := runFrom_notFound parse net mp fuel page file last ctr hpage
          (by rw [hf]; rfl)
        rw [hx] at hr
        simp at hr
      | some s =>
        by_cases hs : s = []
        · subst hs
          have hx := runFrom_notFound parse net mp fuel page file last ctr hpage
            (by rw [hf]; rfl)
          rw [hx] at hr
          simp at hr
        · by_cases h3 : 3 ≤ nextCounter (getTextDoc (parse s)) last ctr
          · have hx := runFrom_endStep parse net mp fuel page file last ctr s
              hpage hf hs h3
            rw [hx] at hr ⊢
            have hctr : nextCounter (getTextDoc (parse s)) last ctr ≤ ctr + 1 := by
              unfold nextCounter
              by_cases hstrike : isStrike (getTextDoc (parse s)) last <;>
                simp [hstrike]
            simp only at hr
            have hp : page - 3 = p := by
              injection hr
            simp only [List.getLast?_singleton, Option.some.injEq]
            omega
          · have hx := runFrom_continue parse net mp fuel page file last ctr s
              hpage hf hs (by omega)
            rw [hx] at hr ⊢
            dsimp only [consFetched] at hr ⊢
            have hinv2 :
                nextCounter (getTextDoc (parse s)) last ctr + 1 ≤ page + 1 := by
              unfold nextCounter
              by_cases hstrike : isStrike (getTextDoc (parse s)) last
              · rw [if_pos hstrike]; omega
              · rw [if_neg hstrike]; omega
            have hrec := ih (page + 1) (extract_and_save_content (parse s) file page)
              (getTextDoc (parse s)) (nextCounter (getTextDoc (parse s)) last ctr)
              p hinv2 hr
            cases hfe : (runFrom parse net mp fuel (page + 1)
                (extract_and_save_content (parse s) file page)
                (getTextDoc (parse s))
                (nextCounter (getTextDoc (parse s)) last ctr)).fetched with
            | nil =>
              rw [hfe] at hrec
              simp at hrec
            | cons a t =>
              rw [hfe] at hrec
              rw [List.getLast?_cons_cons]
              exact hrec

/-! ## The claims -/

/-- Claim C1 (amended): whenever the empty/repeat counter reaches 3, the
loop stops and the reported logical end-of-book page is the breaking page
number minus 3 (equivalently, the last fetched page is the reported page
plus 3); and in the stop-after-three scenario — pages 1-9 distinct and
non-empty, pages 10, 11, 12 repeating page 9's whole-page text — the run
stops with reported end-page 9, having fetched exactly pages 1-12. -/
theorem claim1_stop_after_three :
    (∀ (parse : PyStr → Doc) (net : Nat → Nat × PyStr) (mp fuel page : Nat)
       (file last : PyStr) (ctr p : Nat),
      ctr + 1 ≤ page →
      (runFrom parse net mp fuel page file last ctr).reason = .endDetected p →
      (runFrom parse net mp fuel page file last ctr).fetched.getLast? =
        some (p + 3)) ∧
    runBook parseSimple srcC1good 20 =
      ⟨pstr "c1\n\nc2\n\nc3\n\nc4\n\nc5\n\nc6\n\nc7\n\nc8\n\nc9\n\n",
       List.range' 1 12, .endDetected 9⟩ :=
  ⟨fun parse net mp fuel page file last ctr p h1 h2 =>
     runFrom_endDetected_last parse net mp fuel page file last ctr p h1 h2,
   by decide⟩

/-- Claim C1 witness: the general part instantiated on the
stop-after-three scenario source. -/
theorem claim1_stop_after_three_witness :
    (runFrom parseSimple srcC1good 20 21 1 [] [] 0).fetched.getLast? =
      some (9 + 3) :=
  claim1_stop_after_three.1 parseSimple srcC1good 20 21 1 [] [] 0 9
    (by decide) (by decide)

/-- Claim C1 counterexample: a source whose pages 1-9 are distinct and
non-empty and whose pages 10, 11, 12 carry identical whole-page text (but
fresh relative to page 9).  Page 10 resets the counter, so the third
strike only lands at page 13: the loop fetches page 13 (beyond 12) and
reports end-page 10, not 9. -/
theorem claim1_counterexample :
    (runBook parseSimple srcC1bad 20).reason = .endDetected 10 ∧
    (runBook parseSimple srcC1bad 20).reason ≠ .endDetected 9 ∧
    13 ∈ (runBook parseSimple srcC1bad 20).fetched := by decide

/-- Claim C2 (amended): for each marker the extractor collects the
paragraph siblings in document order but, because the step is
`find_next_sibling('p')`, it skips over a non-paragraph sibling and keeps
collecting any paragraph siblings after it; in the scenario of marker "7"
followed by three paragraph siblings and then a non-paragraph element
with no paragraph sibling after it, exactly those three paragraphs are
yielded in source order. -/
theorem claim2_extraction_order :
    extract_texts docMarker7 7 = [pstr "alpha", pstr "beta", pstr "gamma"] ∧
    extract_texts docMarker7Split 7 = [pstr "alpha", pstr "beta"] := by decide

/-- Claim C2 counterexample: with marker "7", one paragraph, a `div`, and
then another paragraph, the code also collects the paragraph after the
`div`, so it does not stop at the first non-paragraph sibling as the
claim asserts. -/
theorem claim2_counterexample :
    extract_texts docMarker7Split 7 ≠ [pstr "alpha"] ∧
    pstr "beta" ∈ extract_texts docMarker7Split 7 := by decide

/-- Claim C3 (amended): `clean_content` removes every occurrence of the
dash + non-breaking-space pair (left to right, non-overlapping) — in
particular one that opens the content — replaces the remaining
non-breaking spaces with ordinary spaces, and trims surrounding
whitespace: no non-breaking space survives and the result is fully
trimmed.  The last conjunct shows a non-opening occurrence being
removed. -/
theorem claim3_normalizer (s : PyStr) :
    clean_content (ndash :: nbsp :: s) = clean_content s ∧
    nbsp ∉ clean_content s ∧
    pyStrip (clean_content s) = clean_content s ∧
    clean_content (pstr "a– b") = pstr "ab" :=
  ⟨clean_content_cons_pair s, nbsp_notMem_clean_content s,
   by unfold clean_content; exact pyStrip_idem _, by decide⟩

/-- Claim C3 counterexample: in `"x– y"` the dash + non-breaking-space
pair does not open the content, yet `clean_content` deletes it (the dash
is gone from the output), contradicting "an occurrence of the dash+NBSP
sequence that does not open the content is not deleted". -/
theorem claim3_counterexample :
    clean_content (pstr "x– y") = pstr "xy" ∧
    ndash ∉ clean_content (pstr "x– y") := by decide

/-- Claim C4: the Text Normalizer is idempotent, and neither a
non-breaking space nor a leading dash + non-breaking-space pair survives
one pass (so a second pass finds nothing to do). -/
theorem claim4_idempotent (s : PyStr) :
    clean_content (clean_content s) = clean_content s ∧
    nbsp ∉ clean_content s ∧
    ¬ [ndash, nbsp] <+: clean_content s :=
  ⟨clean_content_fix s, nbsp_notMem_clean_content s,
   fun h => nbsp_notMem_clean_content s (h.subset (by simp))⟩

/-- Claim C5: a non-success HTTP status at page n stops the loop at once
— nothing is written for page n and no page beyond n is fetched; on the
synthetic source whose page 5 is a 404, the run processes exactly the 4
successful pages 1-4, writes their content only, and stops at page 5. -/
theorem claim5_absence_stops :
    (∀ (parse : PyStr → Doc) (net : Nat → Nat × PyStr) (mp fuel page : Nat)
       (file last : PyStr) (ctr : Nat),
      page ≤ mp → (net page).1 ≠ 200 →
      runFrom parse net mp (fuel + 1) page file last ctr =
        ⟨file, [page], .notFound page⟩) ∧
    runBook parseSimple srcC5 20 =
      ⟨pstr "c1\n\nc2\n\nc3\n\nc4\n\n", [1, 2, 3, 4, 5], .notFound 5⟩ :=
  ⟨fun parse net mp fuel page file last ctr hpage hstat =>
     runFrom_notFound parse net mp fuel page file last ctr hpage
       (by unfold fetch_page; rw [if_neg hstat]; rfl),
   by decide⟩

/-- Claim C5 witness: the general part instantiated at page 5 of the
synthetic 404 source, with a non-empty file showing nothing is added. -/
theorem claim5_absence_stops_witness :
    runFrom parseSimple srcC5 20 16 5 (pstr "w") [] 0 =
      ⟨pstr "w", [5], .notFound 5⟩ :=
  claim5_absence_stops.1 parseSimple srcC5 20 15 5 (pstr "w") [] 0
    (by decide) (by decide)

/-- Claim C6: the loop runs at most `max_pages` iterations whatever the
source does; with `max_pages = 3` and a source that never signals absence
or repetition, exactly pages 1, 2, 3 are processed and the loop stops by
exhaustion. -/
theorem claim6_ceiling :
    (∀ (parse : PyStr → Doc) (net : Nat → Nat × PyStr) (mp : Nat),
      (runBook parse net mp).fetched.length ≤ mp) ∧
    runBook parseSimple srcC6 3 =
      ⟨pstr "c1\n\nc2\n\nc3\n\n", [1, 2, 3], .exhausted⟩ :=
  ⟨fun parse net mp => by
     have h := runFrom_fetched_length parse net mp (mp + 1) 1 [] [] 0
     unfold runBook
     omega,
   by decide⟩

/-- Claim C7: in every run the fetched page numbers are exactly the
contiguous block 1, 2, ..., k for some k — strictly increasing from 1,
one at a time, with no skips and no repeats. -/
theorem claim7_monotonic (parse : PyStr → Doc) (net : Nat → Nat × PyStr)
    (mp : Nat) :
    ∃ k, (runBook parse net mp).fetched = List.range' 1 k :=
  runFrom_fetched_range parse net mp (mp + 1) 1 [] [] 0

/-- Claim C8: the EVALUATING step strikes exactly when the whole-page
text is empty/whitespace-only or exactly equal to the previous page's
text (so whitespace-different texts are not repeats), the counter is
incremented on a strike and reset to zero otherwise, and a continuing
iteration hands the current whole-page text on as `last_content`. -/
theorem claim8_strike_rule :
    (∀ current last : PyStr,
      isStrike current last = true ↔ (pyStrip current = [] ∨ current = last)) ∧
    (∀ (current last : PyStr) (ctr : Nat),
      nextCounter current last ctr =
        if pyStrip current = [] ∨ current = last then ctr + 1 else 0) ∧
    (∀ current last : PyStr, pyStrip current ≠ [] → current ≠ last →
      ∀ ctr, nextCounter current last ctr = 0) ∧
    (∀ (parse : PyStr → Doc) (net : Nat → Nat × PyStr) (mp fuel page : Nat)
       (file last : PyStr) (ctr : Nat) (body : PyStr),
      page ≤ mp → fetch_page (net page) = some body → body ≠ [] →
      nextCounter (getTextDoc (parse body)) last ctr < 3 →
      runFrom parse net mp (fuel + 1) page file last ctr =
        consFetched page
          (runFrom parse net mp fuel (page + 1)
            (extract_and_save_content (parse body) file page)
            (getTextDoc (parse body))
            (nextCounter (getTextDoc (parse body)) last ctr))) := by
  have hiff : ∀ current last : PyStr,
      isStrike current last = true ↔ (pyStrip current = [] ∨ current = last) := by
    intro c l
    simp [isStrike, List.isEmpty_iff]
  refine ⟨hiff, ?_, ?_, ?_⟩
  · intro c l ctr
    unfold nextCounter
    by_cases h : pyStrip c = [] ∨ c = l
    · rw [if_pos ((hiff c l).mpr h), if_pos h]
    · rw [if_neg (fun hb => h ((hiff c l).mp hb)), if_neg h]
  · intro c l h1 h2 ctr
    unfold nextCounter
    rw [if_neg (fun hb => ((hiff c l).mp hb).elim h1 h2)]
  · intro parse net mp fuel page file last ctr body hpage hf hb hlow
    exact runFrom_continue parse net mp fuel page file last ctr body
      hpage hf hb hlow

/-- Claim C8 witness: one continuing iteration of the loop on the
never-striking source, showing the stored `last_content` and counter. -/
theorem claim8_strike_rule_witness :
    runFrom parseSimple srcC6 20 2 1 [] [] 0 =
      consFetched 1
        (runFrom parseSimple srcC6 20 1 2
          (extract_and_save_content (parseSimple (pstr "1")) [] 1)
          (getTextDoc (parseSimple (pstr "1")))
          (nextCounter (getTextDoc (parseSimple (pstr "1"))) [] 0)) :=
  claim8_strike_rule.2.2.2 parseSimple srcC6 20 1 1 [] [] 0 (pstr "1")
    (by decide) (by decide) (by decide) (by decide)

/-- Claim C9: when the external conversion tool exits non-zero, the
`CalledProcessError` is caught and the error is reported with the exit
information; the tool is invoked exactly once (no retry), the text file
is untouched, and no exception escapes, so the script exits normally. -/
theorem claim9_conversion_failure (code : Nat) (txt : PyStr) (h : code ≠ 0) :
    convert_txt_to_mobi code txt = ⟨txt, .errorReport code, 1, false⟩ := by
  unfold convert_txt_to_mobi
  rw [if_neg h]

/-- Claim C9 witness: exit code 2 instantiation. -/
theorem claim9_conversion_failure_witness :
    convert_txt_to_mobi 2 (pstr "t") = ⟨pstr "t", .errorReport 2, 1, false⟩ :=
  claim9_conversion_failure 2 (pstr "t") (by decide)

/-- Claim C10: an HTTP 200 response with an empty body is a successful
fetch (`fetch_page` returns the body, not `None`), yet the loop's
truthiness test sends it down the very same path as an absent page: the
loop stops with the "does not exist" outcome and writes nothing for the
page. -/
theorem claim10_empty_success_like_absent :
    (∀ (parse : PyStr → Doc) (net : Nat → Nat × PyStr) (mp fuel page : Nat)
       (file last : PyStr) (ctr : Nat),
      page ≤ mp → net page = (200, []) →
      fetch_page (net page) = some [] ∧
      runFrom parse net mp (fuel + 1) page file last ctr =
        ⟨file, [page], .notFound page⟩) ∧
    (runBook parseSimple srcC10 20 = ⟨[], [1], .notFound 1⟩ ∧
     fetch_page (srcC10 1) = some []) :=
  ⟨fun parse net mp fuel page file last ctr hpage hnet =>
     ⟨by rw [hnet]; rfl,
      runFrom_notFound parse net mp fuel page file last ctr hpage
        (by rw [hnet]; rfl)⟩,
   by decide⟩

/-- Claim C10 witness: the general part instantiated on the synthetic
source whose page 1 is a 200 with empty body. -/
theorem claim10_empty_success_like_absent_witness :
    fetch_page (srcC10 1) = some [] ∧
    runFrom parseSimple srcC10 20 20 1 (pstr "z") [] 0 =
      ⟨pstr "z", [1], .notFound 1⟩ :=
  claim10_empty_success_like_absent.1 parseSimple srcC10 20 19 1 (pstr "z") [] 0
    (by decide) (by decide)
